import Mathlib

/-!
Verification of core consistency logic of the Cumulus ingest platform:
the executions query helpers (`packages/db/src/lib/execution.ts`), the
rule event-source sharing check (`api/models/rules.js`), the bulk granule
operation runners (`api/lambdas/bulk-operation.js`), the executions
delete coordinator, and the granule/execution join upsert.

Stores (the relational catalog, the legacy key-value store, and the
search index) are modelled as explicit state records; fallible
operations return `Except`.
-/

namespace Cumulus

/-! ## Execution query helpers (`packages/db/src/lib/execution.ts`) -/

/-- A row of the `executions` table (the columns relevant to the query). -/
structure ExecutionRow where
  cumulus_id : Nat
  arn : String
  workflow_name : String
  timestamp : Nat
  deriving Repr, DecidableEq

/-- A row of the `granules` table (the columns relevant to the query). -/
structure GranuleRow where
  cumulus_id : Nat
  granule_id : String
  deriving Repr, DecidableEq

/-- A row of the `granules_executions` join table. -/
structure GranulesExecutionsRow where
  granule_cumulus_id : Nat
  execution_cumulus_id : Nat
  deriving Repr, DecidableEq

/-- The database tables the execution query reads. -/
structure ExecutionQueryDb where
  executions : List ExecutionRow
  granules : List GranuleRow
  granulesExecutions : List GranulesExecutionsRow
  deriving Repr

/-- An execution row matches the query when it is joined (via
`granules_executions`) to a granule whose `granule_id` is in `granuleIds`
and its own `workflow_name` is in `workflowNames` — the two `join`s and
two `whereIn` clauses of `executionArnsFromGranuleIdsAndWorkflowNames`. -/
def executionMatches (db : ExecutionQueryDb) (granuleIds workflowNames : List String)
    (e : ExecutionRow) : Bool :=
  (db.granulesExecutions.any (fun ge =>
    ge.execution_cumulus_id == e.cumulus_id &&
      db.granules.any (fun g =>
        g.cumulus_id == ge.granule_cumulus_id &&
          granuleIds.contains g.granule_id))) &&
    workflowNames.contains e.workflow_name

/-- Descending order on execution timestamps (`orderBy timestamp desc`). -/
def tsGE (a b : ExecutionRow) : Prop := b.timestamp ≤ a.timestamp

instance : DecidableRel tsGE := fun a b => inferInstanceAs (Decidable (b.timestamp ≤ a.timestamp))

instance : IsTotal ExecutionRow tsGE := ⟨fun a b => le_total b.timestamp a.timestamp⟩

instance : IsTrans ExecutionRow tsGE := ⟨fun _ _ _ h h' => le_trans h' h⟩

/-- `executionArnsFromGranuleIdsAndWorkflowNames`: select the `arn`s of
matching executions, ordered by `timestamp` descending. -/
def executionArnsFromGranuleIdsAndWorkflowNames (db : ExecutionQueryDb)
    (granuleIds workflowNames : List String) : List String :=
  ((db.executions.filter (executionMatches db granuleIds workflowNames)).insertionSort
    tsGE).map (·.arn)

/-- The error kinds surfaced by the operations modelled in this file. -/
inductive DbError where
  | recordDoesNotExist
  | injected
  deriving Repr, DecidableEq

/-- `newestExecutionArnFromGranuleIdWorkflowName`: run the query for the
single pair, throw `RecordDoesNotExist` when it returns no rows, return
the first arn otherwise. -/
def newestExecutionArnFromGranuleIdWorkflowName (db : ExecutionQueryDb)
    (granuleId workflowName : String) : Except DbError String :=
  match executionArnsFromGranuleIdsAndWorkflowNames db [granuleId] [workflowName] with
  | [] => .error .recordDoesNotExist
  | arn :: _ => .ok arn

/-! ## Rule event-source sharing (`api/models/rules.js`) -/

/-- The two kinesis source-event types (`this.eventMapping` is the
identity on `{arn, logEventArn}`). -/
inductive EventType where
  | arn
  | logEventArn
  deriving Repr, DecidableEq

/-- A rule item: its name, state, `rule.type` and the two event source
mapping identifiers `rule.arn` / `rule.logEventArn`. -/
structure RuleItem where
  name : String
  state : String
  ruleType : String
  ruleArn : String
  ruleLogEventArn : String
  deriving Repr, DecidableEq

/-- `item.rule[eventType]` — the event source mapping identifier selected
by the event type. -/
def RuleItem.eventSourceId (item : RuleItem) : EventType → String
  | .arn => item.ruleArn
  | .logEventArn => item.ruleLogEventArn

/-- `isEventSourceMappingShared`: scan the rules table with filter
`#nm <> :name AND #rl.#tp = :ruleType AND #rl.#<eventType> = :<eventType>`
and report whether the count is positive.  The filter does not mention
the rule's `state`. -/
def isEventSourceMappingShared (rules : List RuleItem) (item : RuleItem)
    (eventType : EventType) : Bool :=
  0 < (rules.filter (fun r =>
    r.name != item.name && r.ruleType == item.ruleType &&
      r.eventSourceId eventType == item.eventSourceId eventType)).length

/-- `deleteKinesisEventSource`: return without touching the mapping when
it is shared, otherwise delete the event source mapping
`item.rule[this.eventMapping[eventType]]` (we return the identifier of
the mapping torn down). -/
def deleteKinesisEventSource (rules : List RuleItem) (item : RuleItem)
    (eventType : EventType) : Option String :=
  if isEventSourceMappingShared rules item eventType then
    none
  else
    some (item.eventSourceId eventType)

/-- The property C9 asserts the scan checks (written from the claim's
words, for comparison with the code): some *other* rule with state
`ENABLED`, the same rule type and the same event-source identifier. -/
def existsOtherEnabledRuleClaim (rules : List RuleItem) (item : RuleItem)
    (eventType : EventType) : Prop :=
  ∃ r ∈ rules, r.name ≠ item.name ∧ r.state = "ENABLED" ∧
    r.ruleType = item.ruleType ∧ r.eventSourceId eventType = item.eventSourceId eventType

instance (rules : List RuleItem) (item : RuleItem) (eventType : EventType) :
    Decidable (existsOtherEnabledRuleClaim rules item eventType) := by
  unfold existsOtherEnabledRuleClaim
  infer_instance

/-! ## Bulk granule operations (`api/lambdas/bulk-operation.js`) -/

namespace Bulk

/-- Which awaited call inside a per-item runner failed.  Each collaborator
call of the source (`collectionPgModel.get`, `getGranuleByUniqueColumns`,
`translatePostgresGranuleToApiGranule`, `chooseTargetExecution`,
`updateGranuleStatusToQueued`, the workflow/reingest handler, and
`unpublishGranule`) is modelled as succeeding or throwing this tag. -/
inductive StepError where
  | collectionGet
  | granuleGet
  | translate
  | chooseTarget
  | updateQueued
  | handler
  | unpublish
  deriving Repr, DecidableEq

/-- Observable events of a bulk run: the per-item mapper ran for a
granule, CMR-unpublish was invoked for it, or its records were deleted
from the stores. -/
inductive BulkAction where
  | processed (granuleId : String)
  | unpublish (granuleId : String)
  | deleteStores (granuleId : String)
  deriving Repr, DecidableEq

/-- One input item of `applyWorkflowToGranules` / `bulkGranuleReingest`,
carrying, for each collaborator call the item makes, whether that call
throws. -/
structure BulkGranule where
  granuleId : String
  collectionGetFails : Bool
  granuleGetFails : Bool
  translateFails : Bool
  chooseTargetFails : Bool
  updateQueuedFails : Bool
  handlerFails : Bool
  deriving Repr, DecidableEq

/-- An awaited collaborator call: throws `e` or returns. -/
def stepRun (fails : Bool) (e : StepError) : Except StepError Unit :=
  if fails then .error e else .ok ()

/-- A per-item result: the granule identifier on success, or the
identifier together with the captured error on failure. -/
def ItemOutcome := String ⊕ (String × StepError)
  deriving Repr, DecidableEq

/-- `p-map` with `stopOnError` semantics over a mapper that also emits a
trace of actions: items are mapped in order; a rejecting mapper either
aborts the run (`stopOnError = true`) or lets every remaining item run,
with the collected errors raised as an aggregate at the end
(`stopOnError = false`). -/
def pMapTr (stopOnError : Bool) (f : α → List BulkAction × Except StepError β) :
    List α → List BulkAction × Except (List StepError) (List β)
  | [] => ([], .ok [])
  | x :: xs =>
    let (tr, r) := f x
    match r with
    | .error e =>
      if stopOnError then (tr, .error [e])
      else
        let (tr', rest) := pMapTr stopOnError f xs
        (tr ++ tr', match rest with
          | .ok _ => .error [e]
          | .error es => .error (e :: es))
    | .ok b =>
      let (tr', rest) := pMapTr stopOnError f xs
      (tr ++ tr', match rest with
        | .ok bs => .ok (b :: bs)
        | .error es => .error es)

/-- The `try` body of the `applyWorkflowToGranules` mapper, in source
order: collection lookup, granule lookup, translation, update-to-queued,
workflow handler. -/
def applyWorkflowTrySteps (g : BulkGranule) : Except StepError Unit := do
  stepRun g.collectionGetFails .collectionGet
  stepRun g.granuleGetFails .granuleGet
  stepRun g.translateFails .translate
  stepRun g.updateQueuedFails .updateQueued
  stepRun g.handlerFails .handler

/-- The outcome the `applyWorkflowToGranules` mapper produces for one
item: the granule id, or the id plus the caught error. -/
def applyWorkflowOutcome (g : BulkGranule) : ItemOutcome :=
  match applyWorkflowTrySteps g with
  | .ok _ => .inl g.granuleId
  | .error e => .inr (g.granuleId, e)

/-- The `applyWorkflowToGranules` per-item mapper: every collaborator
call is inside the `try`, so the mapper itself never rejects. -/
def applyWorkflowItem (g : BulkGranule) : List BulkAction × Except StepError ItemOutcome :=
  ([.processed g.granuleId], .ok (applyWorkflowOutcome g))

/-- `applyWorkflowToGranules`: `pMap` over the items with no options
(`stopOnError` defaults to `true`). -/
def applyWorkflowToGranules (gs : List BulkGranule) :
    List BulkAction × Except (List StepError) (List ItemOutcome) :=
  pMapTr true applyWorkflowItem gs

/-- The `try` body of the `bulkGranuleReingest` mapper, in source order:
granule lookup, translation, `chooseTargetExecution`, update-to-queued,
reingest handler.  The collection lookup is *not* part of it. -/
def reingestTrySteps (g : BulkGranule) : Except StepError Unit := do
  stepRun g.granuleGetFails .granuleGet
  stepRun g.translateFails .translate
  stepRun g.chooseTargetFails .chooseTarget
  stepRun g.updateQueuedFails .updateQueued
  stepRun g.handlerFails .handler

/-- The outcome the `bulkGranuleReingest` `try`/`catch` produces once the
collection lookup has succeeded. -/
def reingestOutcome (g : BulkGranule) : ItemOutcome :=
  match reingestTrySteps g with
  | .ok _ => .inl g.granuleId
  | .error e => .inr (g.granuleId, e)

/-- The `bulkGranuleReingest` per-item mapper: `collectionPgModel.get`
runs *before* the `try` block, so its failure escapes the mapper. -/
def reingestItem (g : BulkGranule) : List BulkAction × Except StepError ItemOutcome :=
  ([.processed g.granuleId],
    match stepRun g.collectionGetFails .collectionGet with
    | .error e => .error e
    | .ok _ => .ok (reingestOutcome g))

/-- `bulkGranuleReingest`: `pMap` over the items with
`{ concurrency: 10, stopOnError: false }`. -/
def bulkGranuleReingest (gs : List BulkGranule) :
    List BulkAction × Except (List StepError) (List ItemOutcome) :=
  pMapTr false reingestItem gs

/-- The stores a granule delete touches, as sets of granule ids: the
relational catalog, the search index, the legacy store, plus which
catalog records are currently marked `published`. -/
structure GranuleStores where
  pg : List String
  esIndex : List String
  legacy : List String
  published : List String
  deriving Repr, DecidableEq

/-- `deleteGranuleAndFiles`: remove the granule's records from all
stores. -/
def deleteFromStores (s : GranuleStores) (id : String) : GranuleStores :=
  { pg := s.pg.filter (· ≠ id)
    esIndex := s.esIndex.filter (· ≠ id)
    legacy := s.legacy.filter (· ≠ id)
    published := s.published.filter (· ≠ id) }

/-- One input item of `bulkGranuleDelete`: the granule id and whether the
CMR-unpublish collaborator throws for it.  Presence in the catalog and
the `published` mark are read from the store state. -/
structure DelRequest where
  granuleId : String
  unpublishFails : Bool
  deriving Repr, DecidableEq

/-- The `bulkGranuleDelete` per-item mapper: look the granule up in the
catalog (a `RecordDoesNotExist` is caught and the item skipped); when the
record is `published` and force-removal was requested, unpublish from CMR
first (a failure rejects the mapper before any deletion); then delete the
granule from all stores and record its id. -/
def bulkDeleteItem (force : Bool) (g : DelRequest) (s : GranuleStores) :
    GranuleStores × List BulkAction × Except StepError (Option String) :=
  if g.granuleId ∈ s.pg then
    if g.granuleId ∈ s.published ∧ force = true then
      if g.unpublishFails then
        (s, [.processed g.granuleId, .unpublish g.granuleId], .error .unpublish)
      else
        ((deleteFromStores { s with published := s.published.filter (· ≠ g.granuleId) }
            g.granuleId),
          [.processed g.granuleId, .unpublish g.granuleId, .deleteStores g.granuleId],
          .ok (some g.granuleId))
    else
      (deleteFromStores s g.granuleId,
        [.processed g.granuleId, .deleteStores g.granuleId], .ok (some g.granuleId))
  else
    (s, [.processed g.granuleId], .ok none)

/-- Stateful `p-map` with `stopOnError: false`: every item runs against
the state left by its predecessors; a rejecting item keeps its state
effects and its error is aggregated at the end. -/
def pMapState (f : α → σ → σ × List BulkAction × Except StepError β) :
    List α → σ → σ × List BulkAction × Except (List StepError) (List β)
  | [], s => (s, [], .ok [])
  | x :: xs, s =>
    let (s1, tr, r) := f x s
    let (s2, tr', rest) := pMapState f xs s1
    (s2, tr ++ tr', match r, rest with
      | .ok b, .ok bs => .ok (b :: bs)
      | .ok _, .error es => .error es
      | .error e, .ok _ => .error [e]
      | .error e, .error es => .error (e :: es))

/-- `bulkGranuleDelete`: `pMap` the delete mapper over the granule list
with `{ concurrency: 10, stopOnError: false }`, threading the stores. -/
def bulkGranuleDelete (force : Bool) (gs : List DelRequest) (s : GranuleStores) :
    GranuleStores × List BulkAction × Except (List StepError) (List (Option String)) :=
  pMapState (bulkDeleteItem force) gs s

end Bulk

/-! ## Execution delete coordination (executions endpoint `del`) -/

namespace ExecDelete

/-- Presence of one execution record (by arn) in each of the three
stores: the relational catalog, the legacy store, the search index. -/
structure ExecStores where
  pg : Bool
  legacy : Bool
  esIndex : Bool
  deriving Repr, DecidableEq

/-- Which store-removal step an injected failure hits. -/
inductive FailAt where
  | pg
  | legacy
  | esIndex
  deriving Repr, DecidableEq

/-- The delete endpoint's response: the record was deleted, or a 404
`NotFoundError`. -/
inductive DelOutcome where
  | deleted
  | notFound
  deriving Repr, DecidableEq

/-- A saga step: an action that may fail, paired with the compensation
that undoes it. -/
structure SagaStep (σ ε : Type) where
  act : σ → Except ε σ
  undoStep : σ → σ

/-- Run saga steps in order; on the first failure, apply the
compensations of the already-completed steps in reverse order and report
the error together with the restored state. -/
def runSaga (steps : List (SagaStep σ ε)) (s : σ) (undos : List (σ → σ)) :
    (σ × Option ε) :=
  match steps with
  | [] => (s, none)
  | st :: rest =>
    match st.act s with
    | .error e => (undos.foldl (fun acc u => u acc) s, some e)
    | .ok s' => runSaga rest s' (st.undoStep :: undos)

/-- Modelled from the spec: the executions endpoint `del` handler
(`api/endpoints/executions.js`) is not among the sources; only its tests
are.  Per §4.3 step 4 the coordinator deletes store-by-store in
catalog → legacy → index order, and per §4.3 steps 2–3 / §5 / §9 the
whole sequence runs in one transaction scope with the pre-images held, so
a failure at any step reverts the already-completed removals before the
error surfaces.  The saga below holds each store's pre-image from the
existence check and restores it on compensation. -/
def deleteSagaSteps (inj : Option FailAt) (s0 : ExecStores) :
    List (SagaStep ExecStores DbError) :=
  [ { act := fun s => if inj = some .pg then .error .injected else .ok { s with pg := false }
      undoStep := fun s => { s with pg := s0.pg } }
  , { act := fun s =>
        if inj = some .legacy then .error .injected else .ok { s with legacy := false }
      undoStep := fun s => { s with legacy := s0.legacy } }
  , { act := fun s =>
        if inj = some .esIndex then .error .injected else .ok { s with esIndex := false }
      undoStep := fun s => { s with esIndex := s0.esIndex } } ]

/-- Modelled from the spec: the `del` coordinator (§4.3 step 4).  It
checks existence in all three stores and answers the 404 `NotFoundError`
only when the record is absent from all three; otherwise it runs the
store-by-store delete saga, surfacing an injected failure after the
compensations have restored the removed copies. -/
def executionsDel (inj : Option FailAt) (s : ExecStores) :
    ExecStores × Except DbError DelOutcome :=
  if s.pg = false ∧ s.legacy = false ∧ s.esIndex = false then
    (s, .ok .notFound)
  else
    match runSaga (deleteSagaSteps inj s) s [] with
    | (s', none) => (s', .ok .deleted)
    | (s', some e) => (s', .error e)

end ExecDelete

/-! ## Granule upsert with execution join record (`@cumulus/db` granule lib) -/

namespace GranuleUpsert

/-- Granule statuses (§3). -/
inductive GStatus where
  | running
  | completed
  | failed
  | queued
  deriving Repr, DecidableEq

/-- Terminal statuses (§4.2): `completed` and `failed`. -/
def GStatus.isTerminal : GStatus → Bool
  | .completed => true
  | .failed => true
  | _ => false

/-- A catalog granule row: surrogate id, natural key
(`granule_id`, `collection_cumulus_id`), mutable status, and the
execution that last wrote the row (the recency information §4.2's policy
compares against). -/
structure GRow where
  cumulus_id : Nat
  granule_id : String
  collection_cumulus_id : Nat
  status : GStatus
  lastExecution : Nat
  deriving Repr, DecidableEq

/-- An incoming granule write: natural key plus the status it carries. -/
structure GInput where
  granule_id : String
  collection_cumulus_id : Nat
  status : GStatus
  deriving Repr, DecidableEq

/-- The catalog state the upsert touches: the `granules` table, the
`granules_executions` join table, and the next fresh surrogate id. -/
structure PgState where
  granules : List GRow
  joins : List GranulesExecutionsRow
  nextId : Nat
  deriving Repr

/-- Look the granule up by its natural key. -/
def findGranule (st : PgState) (g : GInput) : Option GRow :=
  st.granules.find? (fun r =>
    r.granule_id == g.granule_id && r.collection_cumulus_id == g.collection_cumulus_id)

/-- §4.2 ordering policy: a terminal status always applies; a non-running
writer's `running` update for a different execution than the one that
last wrote applies unconditionally; the same execution regressing a
terminal status back to a non-terminal one is discarded. -/
def writeApplies (r : GRow) (g : GInput) (exec : Nat) : Bool :=
  g.status.isTerminal || (exec != r.lastExecution) || !r.status.isTerminal

/-- Modelled from the spec: `GranulePgModel.upsert`
(`@cumulus/db` `models/granule.ts`) is not among the sources.  Per §4.1
and §4.2: insert when the natural key is new; on conflict apply the
ordering policy, either merging the status (and recording the writing
execution) or affecting zero rows.  Returns the affected row, or `none`
when the update was discarded. -/
def granuleUpsert (st : PgState) (g : GInput) (exec : Nat) : PgState × Option GRow :=
  match findGranule st g with
  | none =>
    let row : GRow :=
      { cumulus_id := st.nextId
        granule_id := g.granule_id
        collection_cumulus_id := g.collection_cumulus_id
        status := g.status
        lastExecution := exec }
    ({ st with granules := st.granules ++ [row], nextId := st.nextId + 1 }, some row)
  | some r =>
    if writeApplies r g exec then
      let row := { r with status := g.status, lastExecution := exec }
      ({ st with granules :=
          st.granules.map (fun x => if x.cumulus_id == r.cumulus_id then row else x) },
        some row)
    else
      (st, none)

/-- Modelled from the spec: `GranulesExecutionsPgModel.upsert` — the
idempotent join upsert (§3: re-asserting the same pair must not create a
duplicate row). -/
def joinUpsert (joins : List GranulesExecutionsRow) (rid exec : Nat) :
    List GranulesExecutionsRow :=
  if (⟨rid, exec⟩ : GranulesExecutionsRow) ∈ joins then joins
  else joins ++ [⟨rid, exec⟩]

/-- Modelled from the spec: `upsertGranuleWithExecutionJoinRecord`
(`@cumulus/db` `lib/granule.ts`) is not among the sources; only its tests
are.  Per §4.1/§4.2: upsert the granule row under the ordering policy;
even when that affects zero rows the operation still succeeds and the
(granule, execution) join record is still asserted against the existing
row.  `joinWriteFails` injects a failure of the join-record upsert. -/
def upsertGranuleWithExecutionJoinRecord (st : PgState) (g : GInput) (exec : Nat)
    (joinWriteFails : Bool) : Except DbError (PgState × Option GRow) :=
  let (st1, affected) := granuleUpsert st g exec
  let rid? := match affected with
    | some r => some r.cumulus_id
    | none => (findGranule st1 g).map (·.cumulus_id)
  match rid? with
  | none => .error .recordDoesNotExist
  | some rid =>
    if joinWriteFails then .error .injected
    else .ok ({ st1 with joins := joinUpsert st1.joins rid exec }, affected)

/-- `createRejectableTransaction`: run the operation; on success commit
its state, on failure roll the whole transaction back to the initial
state (§4.1: all multi-row mutations of one logical operation run inside
a caller-supplied transaction). -/
def runTransaction (st : PgState) (f : PgState → Except DbError (PgState × α)) :
    PgState × Except DbError α :=
  match f st with
  | .ok (st', a) => (st', .ok a)
  | .error e => (st, .error e)

/-- One full call of the operation inside its transaction. -/
def upsertOp (st : PgState) (g : GInput) (exec : Nat) (joinWriteFails : Bool) :
    PgState × Except DbError (Option GRow) :=
  runTransaction st (fun s => upsertGranuleWithExecutionJoinRecord s g exec joinWriteFails)

/-- Iterate the (successful-collaborator) operation `n` times. -/
def iterateUpsert (g : GInput) (exec : Nat) : Nat → PgState → PgState
  | 0, st => st
  | n + 1, st => iterateUpsert g exec n (upsertOp st g exec false).1

end GranuleUpsert

/-! ## Concrete instances used by counterexamples and witnesses -/

/-- A kinesis rule item whose event source mappings are shared. -/
def itemC9 : RuleItem :=
  { name := "rule1", state := "ENABLED", ruleType := "kinesis"
    ruleArn := "uuid-1", ruleLogEventArn := "uuid-log-1" }

/-- A second, *disabled* rule on the same stream with the same event
source mappings. -/
def disabledRuleC9 : RuleItem :=
  { name := "rule2", state := "DISABLED", ruleType := "kinesis"
    ruleArn := "uuid-1", ruleLogEventArn := "uuid-log-1" }

/-- The rules table holding the two. -/
def rulesC9 : List RuleItem := [itemC9, disabledRuleC9]

/-- A catalog state holding one completed granule written by execution 5,
with its join row. -/
def stC5 : GranuleUpsert.PgState :=
  { granules := [{ cumulus_id := 0, granule_id := "g1", collection_cumulus_id := 1
                   status := .completed, lastExecution := 5 }]
    joins := [⟨0, 5⟩]
    nextId := 1 }

/-- An incoming `running` write for that granule. -/
def gC5 : GranuleUpsert.GInput :=
  { granule_id := "g1", collection_cumulus_id := 1, status := .running }

/-- An empty catalog state. -/
def stEmpty : GranuleUpsert.PgState := { granules := [], joins := [], nextId := 0 }

/-- A bulk-operation item whose collaborator calls all succeed. -/
def cleanBulkGranule (id : String) : Bulk.BulkGranule :=
  { granuleId := id, collectionGetFails := false, granuleGetFails := false
    translateFails := false, chooseTargetFails := false, updateQueuedFails := false
    handlerFails := false }

/-- Five granules where item 3 throws during collection resolution. -/
def granulesC7 : List Bulk.BulkGranule :=
  [ cleanBulkGranule "g1", cleanBulkGranule "g2"
  , { cleanBulkGranule "g3" with collectionGetFails := true }
  , cleanBulkGranule "g4", cleanBulkGranule "g5" ]

/-- Three delete requests; the second one's CMR-unpublish fails. -/
def delRequestsC8 : List Bulk.DelRequest :=
  [ { granuleId := "a", unpublishFails := false }
  , { granuleId := "b", unpublishFails := true }
  , { granuleId := "c", unpublishFails := false } ]

/-- Stores holding all three granules, with "b" marked published. -/
def storesC8 : Bulk.GranuleStores :=
  { pg := ["a", "b", "c"], esIndex := ["a", "b", "c"], legacy := ["a", "b", "c"]
    published := ["b"] }

/-- A database with one granule joined to two executions of the same
workflow, one newer than the other. -/
def dbC10 : ExecutionQueryDb :=
  { executions :=
      [ { cumulus_id := 1, arn := "arn-old", workflow_name := "wf", timestamp := 10 }
      , { cumulus_id := 2, arn := "arn-new", workflow_name := "wf", timestamp := 20 } ]
    granules := [{ cumulus_id := 7, granule_id := "g1" }]
    granulesExecutions := [⟨7, 1⟩, ⟨7, 2⟩] }

/-!
## Theorems

Helper lemmas come first, then one theorem per claim (with witnesses and
counterexamples where required).
-/

namespace GranuleUpsert

/-- The asserted join pair is in the table after a join upsert. -/
theorem mem_joinUpsert_self (joins : List GranulesExecutionsRow) (rid exec : Nat) :
    (⟨rid, exec⟩ : GranulesExecutionsRow) ∈ joinUpsert joins rid exec := by
  unfold joinUpsert
  split
  · assumption
  · simp

/-- A join upsert never removes existing rows. -/
theorem mem_joinUpsert_of_mem {joins : List GranulesExecutionsRow}
    {a : GranulesExecutionsRow} (rid exec : Nat) (h : a ∈ joins) :
    a ∈ joinUpsert joins rid exec := by
  unfold joinUpsert
  split
  · exact h
  · simp [h]

/-- A join upsert keeps the table duplicate-free. -/
theorem nodup_joinUpsert {joins : List GranulesExecutionsRow} (rid exec : Nat)
    (h : joins.Nodup) : (joinUpsert joins rid exec).Nodup := by
  unfold joinUpsert
  split
  · exact h
  · next hmem => simpa [List.nodup_append, hmem] using h

/-- Replacing, by surrogate id, the row `find?` located with a row that
still satisfies the predicate makes `find?` return the replacement. -/
theorem find?_replace_by_id (l : List GRow) (p : GRow → Bool) (r row : GRow)
    (hf : l.find? p = some r) (hrow : p row = true) :
    (l.map (fun x => if x.cumulus_id == r.cumulus_id then row else x)).find? p
      = some row := by
  induction l with
  | nil => simp at hf
  | cons x xs ih =>
    by_cases hx : p x = true
    · rw [List.find?_cons_of_pos _ hx] at hf
      have hxr : x = r := by injection hf
      subst hxr
      simp only [List.map_cons, beq_self_eq_true, if_pos]
      exact List.find?_cons_of_pos _ hrow
    · rw [List.find?_cons_of_neg _ hx] at hf
      simp only [List.map_cons]
      by_cases hid : (x.cumulus_id == r.cumulus_id) = true
      · rw [if_pos hid]
        exact List.find?_cons_of_pos _ hrow
      · rw [if_neg hid]
        rw [List.find?_cons_of_neg _ hx]
        exact ih hf

/-- Appending a fresh matching row to a list `find?` misses makes
`find?` return it. -/
theorem find?_append_fresh (l : List GRow) (p : GRow → Bool) (row : GRow)
    (hf : l.find? p = none) (hrow : p row = true) :
    (l ++ [row]).find? p = some row := by
  induction l with
  | nil => simpa using List.find?_cons_of_pos [] hrow
  | cons x xs ih =>
    rw [List.find?_eq_none] at hf
    have hx : ¬p x = true := hf x (List.mem_cons_self x xs)
    rw [List.cons_append, List.find?_cons_of_neg _ hx]
    exact ih (List.find?_eq_none.mpr (fun a ha => hf a (List.mem_cons_of_mem x ha)))

/-- One successful call of the join-upsert operation always leaves a row
for the natural key with the (row, execution) pair in the join table,
keeping the join table duplicate-free. -/
theorem upsertOp_step (st : PgState) (g : GInput) (exec : Nat) :
    ∃ r, findGranule (upsertOp st g exec false).1 g = some r ∧
      (⟨r.cumulus_id, exec⟩ : GranulesExecutionsRow) ∈ (upsertOp st g exec false).1.joins ∧
      (st.joins.Nodup → (upsertOp st g exec false).1.joins.Nodup) := by
  cases hf : findGranule st g with
  | none =>
    have hrow : (fun x : GRow =>
        x.granule_id == g.granule_id && x.collection_cumulus_id == g.collection_cumulus_id)
        ({ cumulus_id := st.nextId, granule_id := g.granule_id
           collection_cumulus_id := g.collection_cumulus_id, status := g.status
           lastExecution := exec } : GRow) = true := by simp
    have hop : (upsertOp st g exec false).1 =
        { granules := st.granules ++
            [{ cumulus_id := st.nextId, granule_id := g.granule_id
               collection_cumulus_id := g.collection_cumulus_id, status := g.status
               lastExecution := exec }]
          joins := joinUpsert st.joins st.nextId exec
          nextId := st.nextId + 1 } := by
      simp [upsertOp, runTransaction, upsertGranuleWithExecutionJoinRecord,
        granuleUpsert, hf]
    refine ⟨{ cumulus_id := st.nextId, granule_id := g.granule_id
              collection_cumulus_id := g.collection_cumulus_id, status := g.status
              lastExecution := exec }, ?_, ?_, ?_⟩
    · rw [hop]
      exact find?_append_fresh st.granules _ _ hf hrow
    · rw [hop]
      exact mem_joinUpsert_self _ _ _
    · intro hnd
      rw [hop]
      exact nodup_joinUpsert _ _ hnd
  | some r =>
    have hfind : st.granules.find? (fun x =>
        x.granule_id == g.granule_id && x.collection_cumulus_id == g.collection_cumulus_id)
        = some r := hf
    have hpred := List.find?_some hfind
    cases happ : writeApplies r g exec with
    | true =>
      have hop : (upsertOp st g exec false).1 =
          { granules := st.granules.map (fun x =>
              if x.cumulus_id == r.cumulus_id then
                { r with status := g.status, lastExecution := exec } else x)
            joins := joinUpsert st.joins r.cumulus_id exec
            nextId := st.nextId } := by
        simp [upsertOp, runTransaction, upsertGranuleWithExecutionJoinRecord,
          granuleUpsert, hf, happ]
      refine ⟨{ r with status := g.status, lastExecution := exec }, ?_, ?_, ?_⟩
      · rw [hop]
        exact find?_replace_by_id st.granules _ r _ hfind (by exact hpred)
      · rw [hop]
        exact mem_joinUpsert_self _ _ _
      · intro hnd
        rw [hop]
        exact nodup_joinUpsert _ _ hnd
    | false =>
      have hop : (upsertOp st g exec false).1 =
          { granules := st.granules
            joins := joinUpsert st.joins r.cumulus_id exec
            nextId := st.nextId } := by
        simp [upsertOp, runTransaction, upsertGranuleWithExecutionJoinRecord,
          granuleUpsert, hf, happ]
      refine ⟨r, ?_, ?_, ?_⟩
      · rw [hop]
        exact hfind
      · rw [hop]
        exact mem_joinUpsert_self _ _ _
      · intro hnd
        rw [hop]
        exact nodup_joinUpsert _ _ hnd

/-- A zero-rows-affected granule upsert leaves the state unchanged and
means the natural key already had a row. -/
theorem granuleUpsert_none (st : PgState) (g : GInput) (exec : Nat)
    (h : (granuleUpsert st g exec).2 = none) :
    granuleUpsert st g exec = (st, none) ∧ ∃ r, findGranule st g = some r := by
  cases hf : findGranule st g with
  | none => simp [granuleUpsert, hf] at h
  | some r =>
    cases hw : writeApplies r g exec with
    | true => simp [granuleUpsert, hf, hw] at h
    | false => exact ⟨by simp [granuleUpsert, hf, hw], r, rfl⟩

end GranuleUpsert

/-- C1: for every execution delete where a failure is injected at any one
of the three store-removal steps (catalog, legacy store, or search
index), the operation rejects with the injected error and the execution
record is still present in all three stores afterward — no store has
lost its copy because a different store's removal failed. -/
theorem executionsDel_partial_failure_preserves_stores
    (inj : ExecDelete.FailAt) (s : ExecDelete.ExecStores)
    (hpg : s.pg = true) (hleg : s.legacy = true) (hes : s.esIndex = true) :
    ExecDelete.executionsDel (some inj) s = (s, .error .injected) := by
  obtain ⟨p, l, e⟩ := s
  simp only at hpg hleg hes
  subst hpg
  subst hleg
  subst hes
  cases inj <;> rfl

/-- Witness for C1: a concrete record present everywhere, failure
injected at the legacy-store step. -/
theorem executionsDel_partial_failure_witness :
    ExecDelete.executionsDel (some .legacy) ⟨true, true, true⟩ =
      (⟨true, true, true⟩, .error .injected) :=
  executionsDel_partial_failure_preserves_stores .legacy ⟨true, true, true⟩ rfl rfl rfl

/-- C2: an execution delete answers the 404 `NotFoundError` iff the
record is absent from all three stores; when it is present in at least
one store the delete succeeds and removes it from every store where it
was present. -/
theorem executionsDel_notFound_iff_absent_everywhere (s : ExecDelete.ExecStores) :
    ((ExecDelete.executionsDel none s).2 = .ok .notFound ↔
      s.pg = false ∧ s.legacy = false ∧ s.esIndex = false)
    ∧ (¬(s.pg = false ∧ s.legacy = false ∧ s.esIndex = false) →
      ExecDelete.executionsDel none s = (⟨false, false, false⟩, .ok .deleted)) := by
  obtain ⟨p, l, e⟩ := s
  cases p <;> cases l <;> cases e <;>
    simp [ExecDelete.executionsDel, ExecDelete.deleteSagaSteps, ExecDelete.runSaga]

/-- Witness for C2: a record present only in the legacy store is deleted
(with a 200), not answered with a 404. -/
theorem executionsDel_notFound_iff_witness :
    ExecDelete.executionsDel none ⟨false, true, false⟩ =
      (⟨false, false, false⟩, .ok .deleted) :=
  (executionsDel_notFound_iff_absent_everywhere ⟨false, true, false⟩).2 (by simp)

/-- Counterexample to C9 as stated: a disabled rule on the same stream
with the same mapping makes the scan report the mapping as shared, yet
no *other enabled* rule exists, so "shared iff another enabled rule
matches" fails. -/
theorem isShared_enabled_scan_counterexample :
    isEventSourceMappingShared rulesC9 itemC9 .arn = true ∧
      ¬ existsOtherEnabledRuleClaim rulesC9 itemC9 .arn := by
  constructor
  · rfl
  · decide

/-- C9 (amended): `isEventSourceMappingShared` returns true iff at least
one other rule — of any state, enabled or not — has the same rule type
and the same event-source identifier, and `deleteKinesisEventSource`
tears the mapping down exactly when this check returns false. -/
theorem isShared_iff_other_rule_any_state
    (rules : List RuleItem) (item : RuleItem) (eventType : EventType) :
    (isEventSourceMappingShared rules item eventType = true ↔
      ∃ r ∈ rules, r.name ≠ item.name ∧ r.ruleType = item.ruleType ∧
        r.eventSourceId eventType = item.eventSourceId eventType)
    ∧ ((deleteKinesisEventSource rules item eventType).isSome ↔
      isEventSourceMappingShared rules item eventType = false) := by
  constructor
  · simp only [isEventSourceMappingShared, decide_eq_true_eq]
    constructor
    · intro h
      obtain ⟨r, hr⟩ := List.exists_mem_of_length_pos h
      rw [List.mem_filter] at hr
      refine ⟨r, hr.1, ?_⟩
      simpa [Bool.and_eq_true, bne_iff_ne, beq_iff_eq, and_assoc] using hr.2
    · rintro ⟨r, hr, h1, h2, h3⟩
      refine List.length_pos_of_mem (a := r) ?_
      rw [List.mem_filter]
      exact ⟨hr, by simp [Bool.and_eq_true, bne_iff_ne, beq_iff_eq, h1, h2, h3]⟩
  · unfold deleteKinesisEventSource
    cases h : isEventSourceMappingShared rules item eventType <;> simp [h]

/-- C5: when the granule-table upsert affects zero rows, the operation
still completes successfully, the granule row keeps its prior status,
and the (granule, execution) join record is still asserted. -/
theorem upsert_zero_rows_still_succeeds
    (st : GranuleUpsert.PgState) (g : GranuleUpsert.GInput) (exec : Nat)
    (h : (GranuleUpsert.granuleUpsert st g exec).2 = none) :
    ∃ r, GranuleUpsert.findGranule st g = some r ∧
      (GranuleUpsert.upsertOp st g exec false).2 = .ok none ∧
      (GranuleUpsert.upsertOp st g exec false).1.granules = st.granules ∧
      (⟨r.cumulus_id, exec⟩ : GranulesExecutionsRow) ∈
        (GranuleUpsert.upsertOp st g exec false).1.joins := by
  obtain ⟨hpair, r, hr⟩ := GranuleUpsert.granuleUpsert_none st g exec h
  refine ⟨r, hr, ?_⟩
  simp only [GranuleUpsert.upsertOp, GranuleUpsert.runTransaction,
    GranuleUpsert.upsertGranuleWithExecutionJoinRecord, hpair, hr]
  simp [GranuleUpsert.mem_joinUpsert_self]

/-- Witness for C5: a `running` write for the same execution that already
wrote `completed` affects zero rows, yet succeeds and asserts the join. -/
theorem upsert_zero_rows_witness :
    (GranuleUpsert.granuleUpsert stC5 gC5 5).2 = none ∧
      ∃ r, GranuleUpsert.findGranule stC5 gC5 = some r ∧
        (GranuleUpsert.upsertOp stC5 gC5 5 false).2 = .ok none ∧
        (GranuleUpsert.upsertOp stC5 gC5 5 false).1.granules = stC5.granules ∧
        (⟨r.cumulus_id, 5⟩ : GranulesExecutionsRow) ∈
          (GranuleUpsert.upsertOp stC5 gC5 5 false).1.joins :=
  ⟨rfl, upsert_zero_rows_still_succeeds stC5 gC5 5 rfl⟩

/-- C6: when the join-record upsert fails inside the transaction, the
whole operation rejects and nothing is persisted — afterward the catalog
has neither the granule row nor any join row for that execution. -/
theorem upsert_join_failure_nothing_persisted
    (st : GranuleUpsert.PgState) (g : GranuleUpsert.GInput) (exec : Nat)
    (hg : GranuleUpsert.findGranule st g = none)
    (hj : ∀ j ∈ st.joins, j.execution_cumulus_id ≠ exec) :
    GranuleUpsert.upsertOp st g exec true = (st, .error .injected) ∧
      GranuleUpsert.findGranule (GranuleUpsert.upsertOp st g exec true).1 g = none ∧
      ∀ j ∈ (GranuleUpsert.upsertOp st g exec true).1.joins,
        j.execution_cumulus_id ≠ exec := by
  have h1 : GranuleUpsert.upsertOp st g exec true = (st, .error .injected) := by
    simp [GranuleUpsert.upsertOp, GranuleUpsert.runTransaction,
      GranuleUpsert.upsertGranuleWithExecutionJoinRecord, GranuleUpsert.granuleUpsert, hg]
  refine ⟨h1, ?_, ?_⟩
  · rw [h1]; exact hg
  · rw [h1]; exact hj

/-- Witness for C6: on an empty catalog, a join-write failure leaves the
catalog empty. -/
theorem upsert_join_failure_witness :
    GranuleUpsert.upsertOp stEmpty gC5 7 true = (stEmpty, .error .injected) ∧
      GranuleUpsert.findGranule (GranuleUpsert.upsertOp stEmpty gC5 7 true).1 gC5 = none ∧
      ∀ j ∈ (GranuleUpsert.upsertOp stEmpty gC5 7 true).1.joins,
        j.execution_cumulus_id ≠ 7 :=
  upsert_join_failure_nothing_persisted stEmpty gC5 7 rfl (by simp [stEmpty])

/-- C10: the newest-execution lookup returns the arn of a matching
execution with the greatest timestamp (the query orders matches by
timestamp descending and takes the first), and throws
`RecordDoesNotExist` exactly when no execution matches the pair. -/
theorem newestExecutionArn_greatest_timestamp
    (db : ExecutionQueryDb) (granuleId workflowName : String) :
    (∀ arn, newestExecutionArnFromGranuleIdWorkflowName db granuleId workflowName
        = .ok arn →
      ∃ e ∈ db.executions, executionMatches db [granuleId] [workflowName] e = true ∧
        e.arn = arn ∧
        ∀ e' ∈ db.executions, executionMatches db [granuleId] [workflowName] e' = true →
          e'.timestamp ≤ e.timestamp)
    ∧ (newestExecutionArnFromGranuleIdWorkflowName db granuleId workflowName
        = .error .recordDoesNotExist ↔
      ∀ e ∈ db.executions, executionMatches db [granuleId] [workflowName] e = false) := by
  set p := executionMatches db [granuleId] [workflowName] with hp
  have hperm := List.perm_insertionSort tsGE (db.executions.filter p)
  have hsorted := List.sorted_insertionSort tsGE (db.executions.filter p)
  cases hs : (db.executions.filter p).insertionSort tsGE with
  | nil =>
    rw [hs] at hperm
    have hnil : db.executions.filter p = [] := hperm.symm.eq_nil
    have hres : newestExecutionArnFromGranuleIdWorkflowName db granuleId workflowName
        = .error .recordDoesNotExist := by
      simp only [newestExecutionArnFromGranuleIdWorkflowName,
        executionArnsFromGranuleIdsAndWorkflowNames, ← hp, hs, List.map_nil]
    refine ⟨?_, ?_⟩
    · intro arn har
      rw [hres] at har
      exact absurd har (by simp)
    · rw [hres]
      simp only [true_iff]
      intro e he
      by_contra hpe
      have : e ∈ db.executions.filter p :=
        List.mem_filter.mpr ⟨he, by simpa [Bool.not_eq_false] using hpe⟩
      simp [hnil] at this
  | cons a t =>
    rw [hs] at hperm hsorted
    have ha : a ∈ db.executions.filter p := hperm.subset (List.mem_cons_self a t)
    have hamem : a ∈ db.executions := (List.mem_filter.mp ha).1
    have hap : p a = true := (List.mem_filter.mp ha).2
    have hmax : ∀ e' ∈ db.executions, p e' = true → e'.timestamp ≤ a.timestamp := by
      intro e' he' hpe'
      have hmem : e' ∈ a :: t := hperm.symm.subset (List.mem_filter.mpr ⟨he', hpe'⟩)
      rcases List.mem_cons.mp hmem with h | h
      · rw [h]
      · exact List.rel_of_sorted_cons hsorted e' h
    have hres : newestExecutionArnFromGranuleIdWorkflowName db granuleId workflowName
        = .ok a.arn := by
      simp only [newestExecutionArnFromGranuleIdWorkflowName,
        executionArnsFromGranuleIdsAndWorkflowNames, ← hp, hs, List.map_cons]
    refine ⟨?_, ?_⟩
    · intro arn har
      rw [hres] at har
      have harn : a.arn = arn := by
        injection har
      exact ⟨a, hamem, hap, harn, hmax⟩
    · rw [hres]
      constructor
      · intro h
        exact absurd h (by simp)
      · intro hall
        exact absurd hap (by simp [hall a hamem])

/-- Witness for C10: of two matching executions the arn of the one with
the greater timestamp is returned. -/
theorem newestExecutionArn_witness :
    ∃ e ∈ dbC10.executions,
      executionMatches dbC10 ["g1"] ["wf"] e = true ∧ e.arn = "arn-new" ∧
        ∀ e' ∈ dbC10.executions, executionMatches dbC10 ["g1"] ["wf"] e' = true →
          e'.timestamp ≤ e.timestamp :=
  (newestExecutionArn_greatest_timestamp dbC10 "g1" "wf").1 "arn-new" rfl

/-- C4: a `running` update from a different execution B than the
execution A that last wrote a non-running status applies: the row's
status becomes `running` and join rows exist for both A and B. -/
theorem running_update_different_execution_applies
    (st : GranuleUpsert.PgState) (gIn : GranuleUpsert.GInput) (r : GranuleUpsert.GRow)
    (A B : Nat)
    (hstatus : gIn.status = .running)
    (hf : GranuleUpsert.findGranule st gIn = some r)
    (hnonrun : r.status ≠ .running)
    (hlast : r.lastExecution = A)
    (hBA : B ≠ A)
    (hjoinA : (⟨r.cumulus_id, A⟩ : GranulesExecutionsRow) ∈ st.joins) :
    ∃ row, (GranuleUpsert.upsertOp st gIn B false).2 = .ok (some row) ∧
      GranuleUpsert.findGranule (GranuleUpsert.upsertOp st gIn B false).1 gIn = some row ∧
      row.status = .running ∧ row.cumulus_id = r.cumulus_id ∧
      (⟨row.cumulus_id, A⟩ : GranulesExecutionsRow) ∈
        (GranuleUpsert.upsertOp st gIn B false).1.joins ∧
      (⟨row.cumulus_id, B⟩ : GranulesExecutionsRow) ∈
        (GranuleUpsert.upsertOp st gIn B false).1.joins := by
  have happ : GranuleUpsert.writeApplies r gIn B = true := by
    have : (B != r.lastExecution) = true := by
      rw [hlast]
      exact bne_iff_ne.mpr hBA
    simp [GranuleUpsert.writeApplies, this]
  have hfind : st.granules.find? (fun x =>
      x.granule_id == gIn.granule_id &&
        x.collection_cumulus_id == gIn.collection_cumulus_id) = some r := hf
  have hpred := List.find?_some hfind
  have hop1 : (GranuleUpsert.upsertOp st gIn B false).1 =
      { granules := st.granules.map (fun x =>
          if x.cumulus_id == r.cumulus_id then
            { r with status := gIn.status, lastExecution := B } else x)
        joins := GranuleUpsert.joinUpsert st.joins r.cumulus_id B
        nextId := st.nextId } := by
    simp [GranuleUpsert.upsertOp, GranuleUpsert.runTransaction,
      GranuleUpsert.upsertGranuleWithExecutionJoinRecord, GranuleUpsert.granuleUpsert,
      hf, happ]
  have hop2 : (GranuleUpsert.upsertOp st gIn B false).2 =
      .ok (some { r with status := gIn.status, lastExecution := B }) := by
    simp [GranuleUpsert.upsertOp, GranuleUpsert.runTransaction,
      GranuleUpsert.upsertGranuleWithExecutionJoinRecord, GranuleUpsert.granuleUpsert,
      hf, happ]
  refine ⟨{ r with status := gIn.status, lastExecution := B }, hop2, ?_, hstatus, rfl,
    ?_, ?_⟩
  · rw [hop1]
    exact GranuleUpsert.find?_replace_by_id st.granules _ r _ hfind (by exact hpred)
  · rw [hop1]
    exact GranuleUpsert.mem_joinUpsert_of_mem _ _ hjoinA
  · rw [hop1]
    exact GranuleUpsert.mem_joinUpsert_self _ _ _

/-- Witness for C4: execution 9 claims a completed granule last written
by execution 5. -/
theorem running_update_witness :
    ∃ row, (GranuleUpsert.upsertOp stC5 gC5 9 false).2 = .ok (some row) ∧
      GranuleUpsert.findGranule (GranuleUpsert.upsertOp stC5 gC5 9 false).1 gC5 = some row ∧
      row.status = .running ∧ row.cumulus_id = 0 ∧
      (⟨row.cumulus_id, 5⟩ : GranulesExecutionsRow) ∈
        (GranuleUpsert.upsertOp stC5 gC5 9 false).1.joins ∧
      (⟨row.cumulus_id, 9⟩ : GranulesExecutionsRow) ∈
        (GranuleUpsert.upsertOp stC5 gC5 9 false).1.joins :=
  running_update_different_execution_applies stC5 gC5
    { cumulus_id := 0, granule_id := "g1", collection_cumulus_id := 1
      status := .completed, lastExecution := 5 }
    5 9 rfl rfl (by decide) rfl (by decide) (by simp [stC5])

/-- C3: re-asserting the same (granule, execution) pair any number of
times leaves exactly one row in the join table for that pair. -/
theorem upsert_join_pair_exactly_one
    (n : Nat) (st : GranuleUpsert.PgState) (g : GranuleUpsert.GInput) (exec : Nat)
    (hnd : st.joins.Nodup) :
    ∃ r, GranuleUpsert.findGranule (GranuleUpsert.iterateUpsert g exec (n + 1) st) g
        = some r ∧
      (GranuleUpsert.iterateUpsert g exec (n + 1) st).joins.count
        (⟨r.cumulus_id, exec⟩ : GranulesExecutionsRow) = 1 := by
  induction n generalizing st with
  | zero =>
    obtain ⟨r, hr, hmem, hndkeep⟩ := GranuleUpsert.upsertOp_step st g exec
    exact ⟨r, hr, List.count_eq_one_of_mem (hndkeep hnd) hmem⟩
  | succ m ih =>
    obtain ⟨r, _, _, hndkeep⟩ := GranuleUpsert.upsertOp_step st g exec
    exact ih (GranuleUpsert.upsertOp st g exec false).1 (hndkeep hnd)

/-- Witness for C3: three re-assertions of the same pair on an empty
catalog leave one join row. -/
theorem upsert_join_pair_witness :
    ∃ r, GranuleUpsert.findGranule (GranuleUpsert.iterateUpsert gC5 4 3 stEmpty) gC5
        = some r ∧
      (GranuleUpsert.iterateUpsert gC5 4 3 stEmpty).joins.count
        (⟨r.cumulus_id, 4⟩ : GranulesExecutionsRow) = 1 :=
  upsert_join_pair_exactly_one 2 stEmpty gC5 4 (by simp [stEmpty])

namespace Bulk

/-- The apply-workflow runner maps every item to one caught outcome and
never rejects: its mapper catches every collaborator failure. -/
theorem pMapTr_apply_eq (gs : List BulkGranule) :
    pMapTr true applyWorkflowItem gs =
      (gs.map (fun g => .processed g.granuleId), .ok (gs.map applyWorkflowOutcome)) := by
  induction gs with
  | nil => rfl
  | cons g gs ih => simp [pMapTr, applyWorkflowItem, ih]

/-- Every item of the reingest runner is processed, whatever fails. -/
theorem pMapTr_reingest_trace (gs : List BulkGranule) :
    (pMapTr false reingestItem gs).1 = gs.map (fun g => .processed g.granuleId) := by
  induction gs with
  | nil => rfl
  | cons g gs ih =>
    rcases hrest : pMapTr false reingestItem gs with ⟨tr', rest⟩
    cases hc : g.collectionGetFails <;>
      cases rest <;>
        simp_all [pMapTr, reingestItem, stepRun, hc, hrest]

/-- The reingest runner resolves exactly when no item's collection lookup
throws. -/
theorem pMapTr_reingest_isOk (gs : List BulkGranule) :
    (pMapTr false reingestItem gs).2.isOk = true ↔
      ∀ g ∈ gs, g.collectionGetFails = false := by
  induction gs with
  | nil => simp [pMapTr, Except.isOk, Except.toBool]
  | cons g gs ih =>
    rcases hrest : pMapTr false reingestItem gs with ⟨tr', rest⟩
    rw [hrest] at ih
    cases hc : g.collectionGetFails <;>
      cases rest <;>
        simp_all [pMapTr, reingestItem, stepRun, hc, hrest, Except.isOk, Except.toBool]

/-- When every collection lookup succeeds the reingest runner returns the
per-item outcomes in order. -/
theorem pMapTr_reingest_ok (gs : List BulkGranule)
    (h : ∀ g ∈ gs, g.collectionGetFails = false) :
    (pMapTr false reingestItem gs).2 = .ok (gs.map reingestOutcome) := by
  induction gs with
  | nil => rfl
  | cons g gs ih =>
    have hc : g.collectionGetFails = false := h g (List.mem_cons_self g gs)
    have ihh := ih (fun g' hg' => h g' (List.mem_cons_of_mem g hg'))
    rcases hrest : pMapTr false reingestItem gs with ⟨tr', rest⟩
    rw [hrest] at ihh
    simp_all [pMapTr, reingestItem, stepRun, hc, hrest]

end Bulk

/-- Counterexample to C7 as stated: five granules given to the reingest
runner where item 3 throws during collection resolution make the whole
run reject — no result list is returned at all, so neither the failing
item nor the remaining items yield entries in a returned list. -/
theorem bulk_reingest_collection_failure_counterexample :
    (Bulk.bulkGranuleReingest granulesC7).2 = .error [.collectionGet] ∧
      ∀ outs : List Bulk.ItemOutcome,
        (Bulk.bulkGranuleReingest granulesC7).2 ≠ .ok outs := by
  refine ⟨rfl, ?_⟩
  intro outs h
  rw [show (Bulk.bulkGranuleReingest granulesC7).2 = .error [.collectionGet] from rfl] at h
  exact Except.noConfusion h

/-- C7 (amended): the apply-workflow runner yields exactly one entry per
item (identifier on success, identifier plus caught error on failure)
and a failure of one item never affects the others; the reingest runner
still processes every item and behaves the same for every failure caught
by its per-item handler, but an item's collection-resolution failure
escapes the handler and makes the whole run reject, so in that case no
result list is returned. -/
theorem bulk_runner_per_item_outcomes (gs : List Bulk.BulkGranule) :
    Bulk.applyWorkflowToGranules gs =
        (gs.map (fun g => .processed g.granuleId), .ok (gs.map Bulk.applyWorkflowOutcome))
    ∧ (Bulk.bulkGranuleReingest gs).1 = gs.map (fun g => .processed g.granuleId)
    ∧ ((∀ g ∈ gs, g.collectionGetFails = false) →
        (Bulk.bulkGranuleReingest gs).2 = .ok (gs.map Bulk.reingestOutcome))
    ∧ ((∃ g ∈ gs, g.collectionGetFails = true) →
        ∃ es, (Bulk.bulkGranuleReingest gs).2 = .error es) := by
  refine ⟨Bulk.pMapTr_apply_eq gs, Bulk.pMapTr_reingest_trace gs,
    Bulk.pMapTr_reingest_ok gs, ?_⟩
  rintro ⟨g, hg, hfail⟩
  cases hres : (Bulk.bulkGranuleReingest gs).2 with
  | error es => exact ⟨es, rfl⟩
  | ok outs =>
    have hok : (Bulk.pMapTr false Bulk.reingestItem gs).2.isOk = true := by
      rw [show Bulk.pMapTr false Bulk.reingestItem gs = Bulk.bulkGranuleReingest gs
        from rfl]
      rw [hres]
      rfl
    have := (Bulk.pMapTr_reingest_isOk gs).mp hok g hg
    rw [hfail] at this
    exact Bool.noConfusion this

namespace Bulk

/-- One delete item only touches store entries of its own granule id. -/
theorem bulkDeleteItem_frame (force : Bool) (g : DelRequest) (s : GranuleStores)
    (id : String) (hne : id ≠ g.granuleId) :
    (id ∈ (bulkDeleteItem force g s).1.pg ↔ id ∈ s.pg) ∧
    (id ∈ (bulkDeleteItem force g s).1.esIndex ↔ id ∈ s.esIndex) ∧
    (id ∈ (bulkDeleteItem force g s).1.published ↔ id ∈ s.published) := by
  unfold bulkDeleteItem
  split_ifs <;> simp [deleteFromStores, List.mem_filter, hne]

/-- Unfolding one step of the bulk delete run: the final state comes from
the tail run on the head item's state, and the trace is the head item's
trace followed by the tail's. -/
theorem bulkDelete_cons (force : Bool) (g : DelRequest) (gs : List DelRequest)
    (s : GranuleStores) :
    (bulkGranuleDelete force (g :: gs) s).1 =
        (bulkGranuleDelete force gs (bulkDeleteItem force g s).1).1 ∧
      (bulkGranuleDelete force (g :: gs) s).2.1 =
        (bulkDeleteItem force g s).2.1 ++
          (bulkGranuleDelete force gs (bulkDeleteItem force g s).1).2.1 := by
  rcases hfx : bulkDeleteItem force g s with ⟨s1, tr, r⟩
  rcases hrest : pMapState (bulkDeleteItem force) gs s1 with ⟨s2, tr2, r2⟩
  simp [bulkGranuleDelete, pMapState, hfx, hrest]

/-- A bulk delete run leaves store entries of ids that belong to none of
its items untouched. -/
theorem bulkDelete_run_frame (force : Bool) (gs : List DelRequest) (s : GranuleStores)
    (id : String) (h : ∀ g ∈ gs, g.granuleId ≠ id) :
    (id ∈ (bulkGranuleDelete force gs s).1.pg ↔ id ∈ s.pg) ∧
    (id ∈ (bulkGranuleDelete force gs s).1.esIndex ↔ id ∈ s.esIndex) ∧
    (id ∈ (bulkGranuleDelete force gs s).1.published ↔ id ∈ s.published) := by
  induction gs generalizing s with
  | nil => simp [bulkGranuleDelete, pMapState]
  | cons g gs ih =>
    have hne : id ≠ g.granuleId := fun heq => h g (List.mem_cons_self g gs) heq.symm
    have hframe := bulkDeleteItem_frame force g s id hne
    have ihh := ih (bulkDeleteItem force g s).1
      (fun g' hg' => h g' (List.mem_cons_of_mem g hg'))
    rw [(bulkDelete_cons force g gs s).1]
    exact ⟨ihh.1.trans hframe.1, ihh.2.1.trans hframe.2.1, ihh.2.2.trans hframe.2.2⟩

/-- Every action in one item's trace carries that item's granule id. -/
theorem bulkDeleteItem_trace_ids (force : Bool) (g : DelRequest) (s : GranuleStores) :
    ∀ a ∈ (bulkDeleteItem force g s).2.1,
      a = .processed g.granuleId ∨ a = .unpublish g.granuleId ∨
        a = .deleteStores g.granuleId := by
  unfold bulkDeleteItem
  split_ifs <;> intro a ha <;> simp_all <;> tauto

/-- Every action in a run's trace carries the granule id of one of the
run's items. -/
theorem bulkDelete_trace_ids (force : Bool) (gs : List DelRequest) (s : GranuleStores) :
    ∀ a ∈ (bulkGranuleDelete force gs s).2.1, ∃ g ∈ gs,
      a = .processed g.granuleId ∨ a = .unpublish g.granuleId ∨
        a = .deleteStores g.granuleId := by
  induction gs generalizing s with
  | nil => simp [bulkGranuleDelete, pMapState]
  | cons g gs ih =>
    intro a ha
    rw [(bulkDelete_cons force g gs s).2] at ha
    rcases List.mem_append.mp ha with h1 | h2
    · exact ⟨g, List.mem_cons_self g gs, bulkDeleteItem_trace_ids force g s a h1⟩
    · obtain ⟨g', hg', hx⟩ := ih (bulkDeleteItem force g s).1 a h2
      exact ⟨g', List.mem_cons_of_mem g hg', hx⟩

/-- A published, force-removed item whose unpublish fails rejects after
`[processed, unpublish]` and leaves the stores untouched. -/
theorem bulkDeleteItem_unpublish_fail_eq (g : DelRequest) (s : GranuleStores)
    (hpg : g.granuleId ∈ s.pg) (hpub : g.granuleId ∈ s.published)
    (hfail : g.unpublishFails = true) :
    bulkDeleteItem true g s =
      (s, [.processed g.granuleId, .unpublish g.granuleId], .error .unpublish) := by
  simp [bulkDeleteItem, hpg, hpub, hfail]

/-- A published, force-removed item whose unpublish succeeds unpublishes
*before* deleting. -/
theorem bulkDeleteItem_unpublish_then_delete (g : DelRequest) (s : GranuleStores)
    (hpg : g.granuleId ∈ s.pg) (hpub : g.granuleId ∈ s.published)
    (hok : g.unpublishFails = false) :
    (bulkDeleteItem true g s).2.1 =
      [.processed g.granuleId, .unpublish g.granuleId, .deleteStores g.granuleId] := by
  simp [bulkDeleteItem, hpg, hpub, hok]

/-- An item present in the catalog whose unpublish (when needed) succeeds
is removed from catalog and index. -/
theorem bulkDeleteItem_deletes (g : DelRequest) (s : GranuleStores)
    (hpg : g.granuleId ∈ s.pg)
    (hok : g.granuleId ∈ s.published → g.unpublishFails = false) :
    g.granuleId ∉ (bulkDeleteItem true g s).1.pg ∧
      g.granuleId ∉ (bulkDeleteItem true g s).1.esIndex := by
  by_cases hpub : g.granuleId ∈ s.published
  · have hf := hok hpub
    simp [bulkDeleteItem, hpg, hpub, hf, deleteFromStores, List.mem_filter]
  · simp [bulkDeleteItem, hpg, hpub, deleteFromStores, List.mem_filter]

/-- In a run with pairwise-distinct granule ids, every item present in
the catalog whose unpublish (when needed) succeeds is deleted from
catalog and index. -/
theorem bulkDelete_deletes_ok_items (gs : List DelRequest) (s : GranuleStores)
    (j : DelRequest)
    (hnd : (gs.map DelRequest.granuleId).Nodup)
    (hj : j ∈ gs) (hjpg : j.granuleId ∈ s.pg)
    (hjok : j.granuleId ∈ s.published → j.unpublishFails = false) :
    j.granuleId ∉ (bulkGranuleDelete true gs s).1.pg ∧
      j.granuleId ∉ (bulkGranuleDelete true gs s).1.esIndex := by
  induction gs generalizing s with
  | nil => cases hj
  | cons g gs ih =>
    rw [List.map_cons, List.nodup_cons] at hnd
    rw [(bulkDelete_cons true g gs s).1]
    rcases List.mem_cons.mp hj with heq | hjtail
    · subst heq
      have hdel := bulkDeleteItem_deletes j s hjpg hjok
      have hrest : ∀ g' ∈ gs, g'.granuleId ≠ j.granuleId := by
        intro g' hg' hh
        exact hnd.1 (hh ▸ List.mem_map_of_mem DelRequest.granuleId hg')
      have hframe := bulkDelete_run_frame true gs (bulkDeleteItem true j s).1
        j.granuleId hrest
      exact ⟨fun hmem => hdel.1 (hframe.1.mp hmem),
        fun hmem => hdel.2 (hframe.2.1.mp hmem)⟩
    · have hne : j.granuleId ≠ g.granuleId := by
        intro hh
        exact hnd.1 (hh ▸ List.mem_map_of_mem DelRequest.granuleId hjtail)
      have hframe := bulkDeleteItem_frame true g s j.granuleId hne
      exact ih (bulkDeleteItem true g s).1 hnd.2 hjtail (hframe.1.mpr hjpg)
        (fun hp => hjok (hframe.2.2.mp hp))

/-- In a run with pairwise-distinct granule ids, a published item whose
unpublish fails keeps its catalog and index records. -/
theorem bulkDelete_preserves_failed_item (gs : List DelRequest) (s : GranuleStores)
    (i : DelRequest)
    (hnd : (gs.map DelRequest.granuleId).Nodup)
    (hi : i ∈ gs)
    (hpg : i.granuleId ∈ s.pg) (hpub : i.granuleId ∈ s.published)
    (hes : i.granuleId ∈ s.esIndex)
    (hfail : i.unpublishFails = true) :
    i.granuleId ∈ (bulkGranuleDelete true gs s).1.pg ∧
      i.granuleId ∈ (bulkGranuleDelete true gs s).1.esIndex := by
  induction gs generalizing s with
  | nil => cases hi
  | cons g gs ih =>
    rw [List.map_cons, List.nodup_cons] at hnd
    rw [(bulkDelete_cons true g gs s).1]
    rcases List.mem_cons.mp hi with heq | hitail
    · have hstate : (bulkDeleteItem true g s).1 = s := by
        rw [heq] at hpg hpub hfail
        rw [bulkDeleteItem_unpublish_fail_eq g s hpg hpub hfail]
      rw [hstate]
      have hrest : ∀ g' ∈ gs, g'.granuleId ≠ i.granuleId := by
        intro g' hg' hh
        rw [heq] at hh
        exact hnd.1 (hh ▸ List.mem_map_of_mem DelRequest.granuleId hg')
      have hframe := bulkDelete_run_frame true gs s i.granuleId hrest
      exact ⟨hframe.1.mpr hpg, hframe.2.1.mpr hes⟩
    · have hne : i.granuleId ≠ g.granuleId := by
        intro hh
        exact hnd.1 (hh ▸ List.mem_map_of_mem DelRequest.granuleId hitail)
      have hframe := bulkDeleteItem_frame true g s i.granuleId hne
      exact ih (bulkDeleteItem true g s).1 hnd.2 hitail (hframe.1.mpr hpg)
        (hframe.2.2.mpr hpub) (hframe.2.1.mpr hes)

/-- In a run with pairwise-distinct granule ids, a published item whose
unpublish fails has unpublish attempted but never reaches deletion. -/
theorem bulkDelete_trace_failed_item (gs : List DelRequest) (s : GranuleStores)
    (i : DelRequest)
    (hnd : (gs.map DelRequest.granuleId).Nodup)
    (hi : i ∈ gs)
    (hpg : i.granuleId ∈ s.pg) (hpub : i.granuleId ∈ s.published)
    (hfail : i.unpublishFails = true) :
    BulkAction.unpublish i.granuleId ∈ (bulkGranuleDelete true gs s).2.1 ∧
      BulkAction.deleteStores i.granuleId ∉ (bulkGranuleDelete true gs s).2.1 := by
  induction gs generalizing s with
  | nil => cases hi
  | cons g gs ih =>
    rw [List.map_cons, List.nodup_cons] at hnd
    rw [(bulkDelete_cons true g gs s).2]
    rcases List.mem_cons.mp hi with heq | hitail
    · have heq2 : bulkDeleteItem true g s =
          (s, [.processed i.granuleId, .unpublish i.granuleId], .error .unpublish) := by
        rw [heq] at hpg hpub hfail ⊢
        exact bulkDeleteItem_unpublish_fail_eq g s hpg hpub hfail
      have hrest : ∀ g' ∈ gs, g'.granuleId ≠ i.granuleId := by
        intro g' hg' hh
        rw [heq] at hh
        exact hnd.1 (hh ▸ List.mem_map_of_mem DelRequest.granuleId hg')
      constructor
      · rw [List.mem_append]
        left
        rw [heq2]
        simp
      · intro hmem
        rcases List.mem_append.mp hmem with h1 | h2
        · rw [heq2] at h1
          simp at h1
        · obtain ⟨g', hg', hx⟩ :=
            bulkDelete_trace_ids true gs (bulkDeleteItem true g s).1 _ h2
          rcases hx with hx | hx | hx
          · exact BulkAction.noConfusion hx
          · exact BulkAction.noConfusion hx
          · injection hx with hh
            exact hrest g' hg' (hh ▸ rfl)
    · have hne : i.granuleId ≠ g.granuleId := by
        intro hh
        exact hnd.1 (hh ▸ List.mem_map_of_mem DelRequest.granuleId hitail)
      have hframe := bulkDeleteItem_frame true g s i.granuleId hne
      have ihh := ih (bulkDeleteItem true g s).1 hnd.2 hitail (hframe.1.mpr hpg)
        (hframe.2.2.mpr hpub)
      constructor
      · rw [List.mem_append]
        right
        exact ihh.1
      · intro hmem
        rcases List.mem_append.mp hmem with h1 | h2
        · rcases bulkDeleteItem_trace_ids true g s _ h1 with hx | hx | hx
          · exact BulkAction.noConfusion hx
          · exact BulkAction.noConfusion hx
          · injection hx with hh
            exact hne hh
        · exact ihh.2 h2

end Bulk

/-- C8: in a bulk delete with force-removal requested, a published item's
CMR-unpublish is attempted before its deletion; an unpublish failure
aborts only that item's deletion — its catalog and index records stay
untouched — while every other item present in the catalog (whose own
unpublish, when needed, succeeds) is still deleted. -/
theorem bulkDelete_unpublish_failure_isolated
    (gs : List Bulk.DelRequest) (s : Bulk.GranuleStores) (i : Bulk.DelRequest)
    (hnd : (gs.map Bulk.DelRequest.granuleId).Nodup)
    (hi : i ∈ gs)
    (hpg : i.granuleId ∈ s.pg) (hpub : i.granuleId ∈ s.published)
    (hes : i.granuleId ∈ s.esIndex)
    (hfail : i.unpublishFails = true) :
    (Bulk.BulkAction.unpublish i.granuleId ∈ (Bulk.bulkGranuleDelete true gs s).2.1 ∧
      Bulk.BulkAction.deleteStores i.granuleId ∉ (Bulk.bulkGranuleDelete true gs s).2.1)
    ∧ (i.granuleId ∈ (Bulk.bulkGranuleDelete true gs s).1.pg ∧
        i.granuleId ∈ (Bulk.bulkGranuleDelete true gs s).1.esIndex)
    ∧ (∀ j ∈ gs, j.granuleId ∈ s.pg →
        (j.granuleId ∈ s.published → j.unpublishFails = false) →
        j.granuleId ∉ (Bulk.bulkGranuleDelete true gs s).1.pg ∧
          j.granuleId ∉ (Bulk.bulkGranuleDelete true gs s).1.esIndex)
    ∧ (∀ (g : Bulk.DelRequest) (s' : Bulk.GranuleStores), g.granuleId ∈ s'.pg →
        g.granuleId ∈ s'.published → g.unpublishFails = false →
        (Bulk.bulkDeleteItem true g s').2.1 =
          [.processed g.granuleId, .unpublish g.granuleId, .deleteStores g.granuleId]) :=
  ⟨Bulk.bulkDelete_trace_failed_item gs s i hnd hi hpg hpub hfail,
   Bulk.bulkDelete_preserves_failed_item gs s i hnd hi hpg hpub hes hfail,
   fun j hj hjpg hjok => Bulk.bulkDelete_deletes_ok_items gs s j hnd hj hjpg hjok,
   fun g s' h1 h2 h3 => Bulk.bulkDeleteItem_unpublish_then_delete g s' h1 h2 h3⟩

/-- Witness for C8: of three granules, "b" is published and its unpublish
fails; "a" and "c" are still deleted while "b" keeps its records. -/
theorem bulkDelete_unpublish_failure_witness :
    (Bulk.BulkAction.unpublish "b" ∈
        (Bulk.bulkGranuleDelete true delRequestsC8 storesC8).2.1 ∧
      Bulk.BulkAction.deleteStores "b" ∉
        (Bulk.bulkGranuleDelete true delRequestsC8 storesC8).2.1)
    ∧ ("b" ∈ (Bulk.bulkGranuleDelete true delRequestsC8 storesC8).1.pg ∧
        "b" ∈ (Bulk.bulkGranuleDelete true delRequestsC8 storesC8).1.esIndex)
    ∧ (∀ j ∈ delRequestsC8, j.granuleId ∈ storesC8.pg →
        (j.granuleId ∈ storesC8.published → j.unpublishFails = false) →
        j.granuleId ∉ (Bulk.bulkGranuleDelete true delRequestsC8 storesC8).1.pg ∧
          j.granuleId ∉ (Bulk.bulkGranuleDelete true delRequestsC8 storesC8).1.esIndex)
    ∧ (∀ (g : Bulk.DelRequest) (s' : Bulk.GranuleStores), g.granuleId ∈ s'.pg →
        g.granuleId ∈ s'.published → g.unpublishFails = false →
        (Bulk.bulkDeleteItem true g s').2.1 =
          [.processed g.granuleId, .unpublish g.granuleId, .deleteStores g.granuleId]) :=
  bulkDelete_unpublish_failure_isolated delRequestsC8 storesC8
    { granuleId := "b", unpublishFails := true }
    (by decide) (by decide) (by decide) (by decide) (by decide) rfl

/-- Witness for C7: a run with one caught per-item failure still returns
one entry per item. -/
theorem bulk_runner_witness :
    (Bulk.bulkGranuleReingest [cleanBulkGranule "h1",
        { cleanBulkGranule "h2" with granuleGetFails := true }]).2 =
      .ok ([cleanBulkGranule "h1",
        { cleanBulkGranule "h2" with granuleGetFails := true }].map
          Bulk.reingestOutcome) :=
  (bulk_runner_per_item_outcomes [cleanBulkGranule "h1",
    { cleanBulkGranule "h2" with granuleGetFails := true }]).2.2.1 (by decide)

end Cumulus
